import Mathlib

/-!
Verification development for the `clash-royale-history` repository.

The Python sources (`src/analyzer.py`, `src/html_generator.py`,
`src/member_generator.py`) maintain a SQLite database of Clash Royale
battles, clan-member decks and clan rankings, and render HTML reports.
This file gives a shallow embedding of the data model and of the
operations under scrutiny:

* SQLite tables are modelled as Lean lists of rows in insertion order
  (the `id INTEGER PRIMARY KEY AUTOINCREMENT` column of a table is
  modelled by the position in the list, so `ORDER BY id` is list order);
* JSON dictionaries coming from the Clash Royale API are modelled as
  structures whose fields carry `Option` exactly where the Python code
  uses `dict.get` without a default (absent key gives `None`), and a
  plain value where the code supplies a default (`dict.get(k, d)`);
* SQL `NULL` is `Option.none`; `INSERT OR IGNORE` under a `UNIQUE`
  constraint follows SQLite semantics, where `NULL` values are distinct
  from everything (two rows conflict only when all constrained columns
  are pairwise equal and non-`NULL`);
* timestamps are kept as the strings the code stores; SQL
  `ORDER BY <timestamp column>` is the lexicographic order on `String`.
-/

/-- An executable decision procedure for the lexicographic order on
`String` (the order Python's `sorted` and SQLite's `ORDER BY` on TEXT
use), going through `toList` so that concrete instances reduce inside
the kernel. -/
instance decRelStringLE : DecidableRel (fun a b : String => a ≤ b) := fun a b =>
  decidable_of_iff (a.toList ≤ b.toList) String.le_iff_toList_le.symm

/-- A card of a deck as delivered by the API.  The fields mirror the keys
read by `analyzer.py`: `name` (mandatory — `card['name']`), `level`
(`card.get('level', 1)`), `max_level` (`card.get('maxLevel', 15)`),
`evolved` (`card.get('evolved', False)`) and `id` (`card.get('id')`,
which may be absent). -/
structure Card where
  name : String
  level : Int
  max_level : Int
  evolved : Bool
  id : Option Int
deriving DecidableEq

/-- `ClashRoyaleAnalyzer.format_deck` (analyzer.py, lines 427–430):
`' | '.join(sorted([card['name'] for card in cards]))` — the card names,
sorted lexicographically, joined with the fixed delimiter `" | "`. -/
def format_deck (cards : List Card) : String :=
  String.intercalate " | " (List.insertionSort (· ≤ ·) (cards.map Card.name))

/-- A row of the `clan_member_decks` table as projected by the SELECT in
`MemberPageGenerator.get_member_deck_history` (member_generator.py,
lines 32–60): columns `deck_cards, favorite_card, arena_name, league_name,
exp_level, trophies, best_trophies, first_seen, last_seen`.  `arena_name`
and `league_name` may be SQL `NULL` (the inserting code stores
`arena_info.get('name')` / `league_info.get('name')`), hence `Option`.
The display-only `duration` string attached when a period is finalized
(computed by `calculate_deck_duration` from the two timestamps) is not
modelled; no claim mentions it. -/
structure Snap where
  deck_cards : String
  favorite_card : String
  arena_name : Option String
  league_name : Option String
  exp_level : Int
  trophies : Int
  best_trophies : Int
  first_seen : String
  last_seen : String
deriving DecidableEq

/-- The `else` branch of the consolidation loop in
`get_member_deck_history` (member_generator.py, lines 79–87): the current
period keeps its `deck_cards` and `first_seen` and takes `last_seen` and
all the cosmetic fields (`favorite_card`, `arena_name`, `league_name`,
`exp_level`, `trophies`, `best_trophies`) from the newer record. -/
def mergeSnap (c r : Snap) : Snap :=
  { r with deck_cards := c.deck_cards, first_seen := c.first_seen }

/-- The consolidation loop of `get_member_deck_history`
(member_generator.py, lines 64–93).  The first argument is the
`current_deck` variable (`none` initially); a period is emitted when a
record with a different `deck_cards` arrives, and the pending period is
emitted at the end of the loop. -/
def consolidateGo : Option Snap → List Snap → List Snap
  | none, [] => []
  | some c, [] => [c]
  | none, r :: rs => consolidateGo (some r) rs
  | some c, r :: rs =>
    if c.deck_cards ≠ r.deck_cards then c :: consolidateGo (some r) rs
    else consolidateGo (some (mergeSnap c r)) rs

/-- `MemberPageGenerator.get_member_deck_history` (member_generator.py,
lines 18–96) applied to the member's rows as returned by the query
(`ORDER BY first_seen ASC`): consolidate consecutive identical decks,
then return the periods in reverse chronological order. -/
def get_member_deck_history (snaps : List Snap) : List Snap :=
  (consolidateGo none snaps).reverse

/-- Specification-side helper: given the first snapshot `s` of a run,
split the remaining snapshots into the rest of the maximal run of
`deck_cards` equal to `s.deck_cards` and the chunks of the remaining
maximal runs. -/
def runsAux (s : Snap) : List Snap → List Snap × List (List Snap)
  | [] => ([], [])
  | t :: ts =>
    let p := runsAux t ts
    if s.deck_cards = t.deck_cards then (t :: p.1, p.2) else ([], (t :: p.1) :: p.2)

/-- Specification-side helper: the maximal runs of consecutive equal
`deck_cards` fingerprints of a snapshot sequence.  Every run is nonempty
by construction and their concatenation restores the sequence. -/
def runs : List Snap → List (List Snap)
  | [] => []
  | s :: ss => (s :: (runsAux s ss).1) :: (runsAux s ss).2

/-- The consolidated period a maximal run collapses to: the loop of
`get_member_deck_history` folds `mergeSnap` over the run, so the period
keeps the run head's `deck_cards` and `first_seen` and the run tail's
latest `last_seen` and cosmetics (the `[]` case is unreachable — `runs`
only produces nonempty runs). -/
def periodOfRun : List Snap → Snap
  | [] => ⟨"", "", none, none, 0, 0, 0, "", ""⟩
  | s :: rest => rest.foldl mergeSnap s

/-- Concrete snapshot for the C1 scenario. -/
def mkSnap (deck t : String) : Snap :=
  ⟨deck, "Knight", none, none, 0, 0, 0, t, t⟩

/-- The C1 scenario: snapshots A,B / A,B / C,D / C,D / A,B at
t1 < t2 < t3 < t4 < t5. -/
def scenarioC1 : List Snap :=
  [mkSnap "A | B" "t1", mkSnap "A | B" "t2", mkSnap "C | D" "t3",
   mkSnap "C | D" "t4", mkSnap "A | B" "t5"]

/-- A full row of the `clan_member_decks` table (analyzer.py,
lines 134–154), in the column order of the INSERT of
`save_clan_member_deck_if_changed` (lines 369–391).  `arena_id`,
`arena_name`, `league_id` and `league_name` may be `NULL`; the remaining
TEXT/INTEGER columns are always given concrete values by the INSERT. -/
structure DeckRow where
  player_tag : String
  name : String
  deck_cards : String
  favorite_card : String
  arena_id : Option Int
  arena_name : Option String
  league_id : Option Int
  league_name : Option String
  exp_level : Int
  trophies : Int
  best_trophies : Int
  first_seen : String
  last_seen : String
  clan_tag : String
  clan_name : String
deriving DecidableEq

/-- The `league` sub-dictionary of a player payload: `league.get('id')`
and `league.get('name')` may each be absent. -/
structure League where
  id : Option Int
  name : Option String
deriving DecidableEq

/-- A player payload as consumed by `save_clan_member_deck_if_changed`
(analyzer.py, lines 334–405).  `tag` and `name` are mandatory keys
(`player_data['tag']`, `player_data['name']`); `currentDeck` models
`player_data.get('currentDeck', [])`; `favouriteCardName` models
`player_data.get('currentFavouriteCard', {}).get('name', '')`;
`arena_id`/`arena_name` model `player_data.get('arena', {}).get(...)`;
`league` is `none` when `player_data.get('league', {})` is empty/absent
(Python falsy), matching `league_info.get('id') if league_info else
None`; `expLevel`, `trophies`, `bestTrophies` model the `.get(k, 0)`
accesses. -/
structure PlayerData where
  tag : String
  name : String
  currentDeck : List Card
  favouriteCardName : String
  arena_id : Option Int
  arena_name : Option String
  league : Option League
  expLevel : Int
  trophies : Int
  bestTrophies : Int
deriving DecidableEq

/-- The lookup `SELECT deck_cards, favorite_card FROM clan_member_decks
WHERE player_tag = ? ORDER BY id DESC LIMIT 1` (analyzer.py,
lines 351–357): the most recently inserted row for the player (ids are
assigned in insertion order, so it is the last matching list element). -/
def lastDeckRecord (tag : String) (table : List DeckRow) : Option DeckRow :=
  (table.filter fun r => r.player_tag == tag).getLast?

/-- The UPDATE of `save_clan_member_deck_if_changed` (analyzer.py,
lines 397–402): apply `f` to the single row whose `id` is the maximal id
among the player's rows, i.e. to the last matching element of the list,
leaving every other row untouched. -/
def updateLastDeck (tag : String) (f : DeckRow → DeckRow) : List DeckRow → List DeckRow
  | [] => []
  | r :: rs =>
    if rs.any fun x => x.player_tag == tag then r :: updateLastDeck tag f rs
    else if r.player_tag == tag then f r :: rs
    else r :: rs

/-- `ClashRoyaleAnalyzer.save_clan_member_deck_if_changed` (analyzer.py,
lines 334–405) acting on the `clan_member_decks` table: if the player has
no recorded row or the latest row's `deck_cards` differs from the current
fingerprint, INSERT a fresh row with `first_seen = last_seen =
current_time`; otherwise UPDATE the latest row's `last_seen` and
`favorite_card` only. -/
def save_clan_member_deck_if_changed (pd : PlayerData)
    (clan_tag clan_name current_time : String) (table : List DeckRow) : List DeckRow :=
  if (match lastDeckRecord pd.tag table with
      | none => true
      | some r => r.deck_cards != format_deck pd.currentDeck) then
    table ++ [{ player_tag := pd.tag, name := pd.name, deck_cards := format_deck pd.currentDeck,
                favorite_card := pd.favouriteCardName, arena_id := pd.arena_id,
                arena_name := pd.arena_name, league_id := pd.league.bind League.id,
                league_name := pd.league.bind League.name, exp_level := pd.expLevel,
                trophies := pd.trophies, best_trophies := pd.bestTrophies,
                first_seen := current_time, last_seen := current_time,
                clan_tag := clan_tag, clan_name := clan_name }]
  else
    updateLastDeck pd.tag
      (fun r => { r with last_seen := current_time,
                         favorite_card := pd.favouriteCardName }) table

/-- Concrete stored row for the C2 counterexample: the player's latest
deck is `A | B`, seen at `T1`, in Arena 1 with 100 trophies. -/
def c2Row : DeckRow :=
  { player_tag := "#P1", name := "Alice", deck_cards := "A | B", favorite_card := "Knight",
    arena_id := some 1, arena_name := some "Arena 1", league_id := none, league_name := none,
    exp_level := 10, trophies := 100, best_trophies := 100, first_seen := "T1",
    last_seen := "T1", clan_tag := "#C", clan_name := "TheClan" }

/-- Concrete new observation for the C2 counterexample: same deck
fingerprint `A | B`, but a new favorite card, Arena 2 and 999 trophies. -/
def c2Player : PlayerData :=
  { tag := "#P1", name := "Alice",
    currentDeck := [⟨"B", 1, 14, false, none⟩, ⟨"A", 1, 14, false, none⟩],
    favouriteCardName := "Pekka", arena_id := some 2, arena_name := some "Arena 2",
    league := none, expLevel := 11, trophies := 999, bestTrophies := 999 }

/-- One entry of the `deck_card_levels` JSON array produced by
`format_deck_with_levels` (analyzer.py, lines 432–447): name, level
(default 1), max level (default 15), evolved flag (default `False`) and
the card id (possibly absent). -/
structure CardLevel where
  name : String
  level : Int
  max_level : Int
  evolved : Bool
  id : Option Int
deriving DecidableEq

/-- Executable decision procedure for the name ordering on `CardLevel`
used by `format_deck_with_levels`' sort. -/
instance decRelCardLevelLE : DecidableRel (fun a b : CardLevel => a.name ≤ b.name) :=
  fun a b => decRelStringLE a.name b.name

/-- `ClashRoyaleAnalyzer.format_deck_with_levels` (analyzer.py,
lines 432–447): the per-card info sorted by card name.  The Python
function returns `json.dumps` of this list; the JSON string is modelled
by the list itself (the serialization is injective on it). -/
def format_deck_with_levels (cards : List Card) : List CardLevel :=
  List.insertionSort (fun a b : CardLevel => a.name ≤ b.name)
    (cards.map fun c => ⟨c.name, c.level, c.max_level, c.evolved, c.id⟩)

/-- The `clan` sub-dictionary of a team entry of a raw battle:
`clan.get('tag')` and `clan.get('name')` may each be absent. -/
structure TeamClan where
  tag : Option String
  name : Option String
deriving DecidableEq

/-- One entry of the `team` / `opponent` arrays of a raw battle record,
with the keys `save_battles` (analyzer.py, lines 463–543) reads:
`tag` (`team.get('tag')`), `name`, `cards` (`.get('cards', [])`),
`crowns` (`.get('crowns', 0)`), `expLevel`, `startingTrophies`,
`trophyChange`, `kingTowerHitPoints`, `princessTowersHitPoints`
(`.get(..., [])`) and `clan` (`none` models an absent/empty `clan`
dictionary, matching `.get('clan', {}).get(...)`). -/
structure RawTeam where
  tag : Option String
  name : Option String
  cards : List Card
  crowns : Nat
  expLevel : Option Int
  startingTrophies : Option Int
  trophyChange : Option Int
  kingTowerHitPoints : Option Int
  princessTowersHitPoints : List Int
  clan : Option TeamClan
deriving DecidableEq

/-- A raw battle record from the battle-log API as read by `save_battles`
(analyzer.py, lines 463–543): `battleTime` is mandatory
(`battle['battleTime']`); `type` is `battle.get('type')`; `gameModeName`
is `battle.get('gameMode', {}).get('name')`; `isLadderTournament` is
`battle.get('isLadderTournament', False)`; `arenaId`/`arenaName` come
from `battle.get('arena', {})`; `duration` is `battle.get('duration')`;
`team` and `opponent` are `battle.get('team', [])` and
`battle.get('opponent', [])`. -/
structure RawBattle where
  battleTime : String
  type : Option String
  gameModeName : Option String
  isLadderTournament : Bool
  arenaId : Option Int
  arenaName : Option String
  duration : Option Nat
  team : List RawTeam
  opponent : List RawTeam
deriving DecidableEq

/-- A row of the `battles` table (analyzer.py, lines 46–76), with the
columns in the order of the INSERT of `save_battles` (lines 510–544).
The autoincrement `id` is the position in the table list.
`princess_towers_hit_points` and `deck_card_levels` are stored as JSON
strings by the code and modelled by the corresponding values. -/
structure BattleRow where
  player_tag : String
  battle_time : String
  battle_type : Option String
  game_mode : Option String
  is_ladder_tournament : Bool
  arena_id : Option Int
  arena_name : Option String
  result : String
  crowns : Nat
  king_tower_hit_points : Option Int
  princess_towers_hit_points : List Int
  deck_cards : String
  deck_card_levels : List CardLevel
  opponent_tag : Option String
  opponent_name : Option String
  opponent_trophies : Option Int
  opponent_deck_cards : Option String
  opponent_deck_card_levels : Option (List CardLevel)
  opponent_clan_tag : Option String
  opponent_clan_name : Option String
  player_level : Option Int
  opponent_level : Option Int
  battle_duration_seconds : Option Nat
  trophy_change : Option Int
deriving DecidableEq

/-- `ClashRoyaleAnalyzer.calculate_battle_duration` (analyzer.py,
lines 449–456): `battle.get('duration')`, but a Python-falsy duration
(absent or `0`) yields `None`. -/
def calculate_battle_duration (b : RawBattle) : Option Nat :=
  match b.duration with
  | some d => if d ≠ 0 then some d else none
  | none => none

/-- The `opponent_crowns` local of `save_battles` (analyzer.py,
line 500): `opponent_team.get('crowns', 0) if opponent_team else 0`,
where `opponent_team` is the first entry of the `opponent` array. -/
def oppCrowns (b : RawBattle) : Nat :=
  match b.opponent.head? with
  | some o => o.crowns
  | none => 0

/-- The per-battle body of the loop in `save_battles` (analyzer.py,
lines 463–543), up to and including building the tuple of column values:
find the player's team entry (`none` — the battle is skipped — when no
team entry's tag equals the ingesting player's tag), take the first
opponent entry if any, and compute the result by comparing crowns. -/
def processBattle (player_tag : String) (b : RawBattle) : Option BattleRow :=
  match b.team.find? (fun t => t.tag == some player_tag) with
  | none => none
  | some player_team =>
    let opponent_team := b.opponent.head?
    some
      { player_tag := player_tag
        battle_time := b.battleTime
        battle_type := b.type
        game_mode := b.gameModeName
        is_ladder_tournament := b.isLadderTournament
        arena_id := b.arenaId
        arena_name := b.arenaName
        result :=
          if player_team.crowns > oppCrowns b then "victory"
          else if player_team.crowns < oppCrowns b then "defeat"
          else "draw"
        crowns := player_team.crowns
        king_tower_hit_points := player_team.kingTowerHitPoints
        princess_towers_hit_points := player_team.princessTowersHitPoints
        deck_cards := format_deck player_team.cards
        deck_card_levels := format_deck_with_levels player_team.cards
        opponent_tag := opponent_team.bind RawTeam.tag
        opponent_name := opponent_team.bind RawTeam.name
        opponent_trophies := opponent_team.bind RawTeam.startingTrophies
        opponent_deck_cards := opponent_team.map fun o => format_deck o.cards
        opponent_deck_card_levels := opponent_team.map fun o => format_deck_with_levels o.cards
        opponent_clan_tag := opponent_team.bind fun o => o.clan.bind TeamClan.tag
        opponent_clan_name := opponent_team.bind fun o => o.clan.bind TeamClan.name
        player_level := player_team.expLevel
        opponent_level := opponent_team.bind RawTeam.expLevel
        battle_duration_seconds := calculate_battle_duration b
        trophy_change := player_team.trophyChange }

/-- Equality of two `Option String` SQL values for the purposes of a
`UNIQUE` constraint: SQLite treats `NULL` as distinct from everything,
so two values conflict only when both are non-`NULL` and equal. -/
def optNNEq (a b : Option String) : Bool :=
  match a, b with
  | some x, some y => x == y
  | _, _ => false

/-- Whether two `battles` rows collide under the table's
`UNIQUE(player_tag, battle_time, battle_type, game_mode)` constraint
(analyzer.py, line 74), with SQLite's `NULL`-distinct semantics. -/
def battleConflict (r₁ r₂ : BattleRow) : Bool :=
  r₁.player_tag == r₂.player_tag && r₁.battle_time == r₂.battle_time &&
    optNNEq r₁.battle_type r₂.battle_type && optNNEq r₁.game_mode r₂.game_mode

/-- The `INSERT OR IGNORE INTO battles` of `save_battles` (analyzer.py,
lines 510–544): the row is appended unless it collides with an existing
row under the UNIQUE constraint, in which case the statement is a no-op
and no stored row is modified. -/
def insertBattle (table : List BattleRow) (row : BattleRow) : List BattleRow :=
  if table.any (fun r => battleConflict r row) then table else table ++ [row]

/-- `ClashRoyaleAnalyzer.save_battles` (analyzer.py, lines 458–550):
process each raw battle in order, skipping records whose team array has
no entry for the ingesting player, and `INSERT OR IGNORE` the rest. -/
def save_battles (player_tag : String) (battles : List RawBattle)
    (table : List BattleRow) : List BattleRow :=
  battles.foldl
    (fun tbl b =>
      match processBattle player_tag b with
      | none => tbl
      | some row => insertBattle tbl row)
    table

/-- Concrete battle for the C3 counterexample: the raw record has no
`type` key and no `gameMode` name, so the stored `battle_type` and
`game_mode` are `NULL`. -/
def c3Battle : RawBattle :=
  { battleTime := "20240101T000000.000Z", type := none, gameModeName := none,
    isLadderTournament := false, arenaId := none, arenaName := none, duration := none,
    team := [{ tag := some "#P", name := none, cards := [], crowns := 1, expLevel := none,
               startingTrophies := none, trophyChange := none, kingTowerHitPoints := none,
               princessTowersHitPoints := [], clan := none }],
    opponent := [] }

/-- The player's team entry of the concrete battle `c8Battle`. -/
def c8Team : RawTeam :=
  { tag := some "#P", name := some "Hero", cards := [⟨"Knight", 11, 14, false, some 26000000⟩],
    crowns := 2, expLevel := some 13, startingTrophies := some 5000, trophyChange := some 30,
    kingTowerHitPoints := some 4000, princessTowersHitPoints := [2000],
    clan := some ⟨some "#C", some "TheClan"⟩ }

/-- Concrete well-formed battle (both `type` and `gameMode.name`
present) used by the C3 and C8 witnesses. -/
def c8Battle : RawBattle :=
  { battleTime := "20240102T101010.000Z", type := some "PvP", gameModeName := some "Ladder",
    isLadderTournament := false, arenaId := some 54000001, arenaName := some "Arena 1",
    duration := some 180,
    team := [c8Team],
    opponent := [{ tag := some "#O", name := some "Rival",
                   cards := [⟨"Archers", 11, 14, false, some 26000001⟩], crowns := 1,
                   expLevel := some 12, startingTrophies := some 4990,
                   trophyChange := some (-30), kingTowerHitPoints := some 1000,
                   princessTowersHitPoints := [], clan := none }] }

/-- The `battles` row `processBattle "#P" c8Battle` produces. -/
def c8Row : BattleRow :=
  { player_tag := "#P", battle_time := "20240102T101010.000Z", battle_type := some "PvP",
    game_mode := some "Ladder", is_ladder_tournament := false, arena_id := some 54000001,
    arena_name := some "Arena 1", result := "victory", crowns := 2,
    king_tower_hit_points := some 4000, princess_towers_hit_points := [2000],
    deck_cards := "Knight", deck_card_levels := [⟨"Knight", 11, 14, false, some 26000000⟩],
    opponent_tag := some "#O", opponent_name := some "Rival", opponent_trophies := some 4990,
    opponent_deck_cards := some "Archers",
    opponent_deck_card_levels := some [⟨"Archers", 11, 14, false, some 26000001⟩],
    opponent_clan_tag := none, opponent_clan_name := none, player_level := some 13,
    opponent_level := some 12, battle_duration_seconds := some 180, trophy_change := some 30 }

/-- The player's team entry of the concrete battle `c10Battle`. -/
def c10Team : RawTeam :=
  { tag := some "#P", name := some "Hero", cards := [⟨"Giant", 11, 14, false, some 26000002⟩],
    crowns := 1, expLevel := some 13, startingTrophies := some 5000, trophyChange := none,
    kingTowerHitPoints := some 4000, princessTowersHitPoints := [],
    clan := some ⟨some "#C", some "TheClan"⟩ }

/-- Concrete battle with an empty `opponent` array, used by the C10
witness. -/
def c10Battle : RawBattle :=
  { battleTime := "20240103T050505.000Z", type := some "PvP", gameModeName := some "Ladder",
    isLadderTournament := false, arenaId := some 54000001, arenaName := some "Arena 1",
    duration := none, team := [c10Team], opponent := [] }

/-- A clan member entry of `clan_data['memberList']` with the keys
`save_clan_rankings_history` (analyzer.py, lines 272–332) reads: `tag`
and `name` (mandatory), `trophies`, `donations`, `donationsReceived`
(each `.get(k, 0)`). -/
structure Member where
  tag : String
  name : String
  trophies : Int
  donations : Int
  donationsReceived : Int
deriving DecidableEq

/-- A row of the `clan_rankings_history` table (analyzer.py,
lines 114–131), in the column order of the INSERT (lines 309–326).
Every column is given a non-`NULL` value by the inserting code. -/
structure RankRow where
  player_tag : String
  name : String
  clan_rank : Nat
  trophies : Int
  donations : Int
  donations_received : Int
  trophy_change : Int
  donation_change : Int
  clan_tag : String
  clan_name : String
  recorded_at : String
deriving DecidableEq

/-- The ordering `ORDER BY recorded_at DESC` on `clan_rankings_history`
rows. -/
def recordedLater (a b : RankRow) : Prop := b.recorded_at ≤ a.recorded_at

instance decRelRecordedLater : DecidableRel recordedLater := fun a b =>
  decRelStringLE b.recorded_at a.recorded_at

instance totalRecordedLater : IsTotal RankRow recordedLater :=
  ⟨fun a b => le_total b.recorded_at a.recorded_at⟩

instance transRecordedLater : IsTrans RankRow recordedLater :=
  ⟨fun _ _ _ hab hbc => le_trans hbc hab⟩

/-- The ordering `sorted(members, key=trophies, reverse=True)` of
`save_clan_rankings_history` (analyzer.py, line 283). -/
def memberMoreTrophies (a b : Member) : Prop := b.trophies ≤ a.trophies

instance decRelMemberMoreTrophies : DecidableRel memberMoreTrophies := fun a b =>
  inferInstanceAs (Decidable (b.trophies ≤ a.trophies))

/-- The lookup `SELECT trophies, donations FROM clan_rankings_history
WHERE player_tag = ? ORDER BY recorded_at DESC LIMIT 1` (analyzer.py,
lines 289–295): the player's chronologically latest prior snapshot. -/
def latestRankRow (tag : String) (table : List RankRow) : Option RankRow :=
  (List.insertionSort recordedLater (table.filter fun r => r.player_tag == tag)).head?

/-- The `INSERT OR IGNORE INTO clan_rankings_history` (analyzer.py,
lines 309–326) under `UNIQUE(player_tag, recorded_at)`; both key columns
are always non-`NULL`, so the row is appended exactly when no stored row
matches on both. -/
def rankInsert (table : List RankRow) (row : RankRow) : List RankRow :=
  if table.any fun r =>
      r.player_tag == row.player_tag && r.recorded_at == row.recorded_at then
    table
  else table ++ [row]

/-- The body of the per-member loop of `save_clan_rankings_history`
(analyzer.py, lines 285–329): look up the member's latest prior
snapshot, compute `trophy_change`/`donation_change` against it (zero
when there is none), and `INSERT OR IGNORE` the new snapshot. -/
def processMember (clan_tag clan_name current_time : String) (rank : Nat)
    (table : List RankRow) (m : Member) : List RankRow :=
  rankInsert table
    { player_tag := m.tag, name := m.name, clan_rank := rank, trophies := m.trophies,
      donations := m.donations, donations_received := m.donationsReceived,
      trophy_change :=
        match latestRankRow m.tag table with
        | some p => m.trophies - p.trophies
        | none => 0,
      donation_change :=
        match latestRankRow m.tag table with
        | some p => m.donations - p.donations
        | none => 0,
      clan_tag := clan_tag, clan_name := clan_name, recorded_at := current_time }

/-- `ClashRoyaleAnalyzer.save_clan_rankings_history` (analyzer.py,
lines 272–332): sort the roster by trophies descending, then process
each member in turn with ranks 1, 2, … . -/
def save_clan_rankings_history (clan_tag clan_name current_time : String)
    (members : List Member) (table : List RankRow) : List RankRow :=
  ((List.insertionSort memberMoreTrophies members).foldl
    (fun acc m => (processMember clan_tag clan_name current_time acc.2 acc.1 m, acc.2 + 1))
    (table, 1)).1

/-- Concrete member observation for the C5 witness (second refresh of
the same player). -/
def c5Member : Member := ⟨"#M", "Mia", 3100, 80, 10⟩

/-- Concrete prior snapshot for the C5 witness: the same player at 3000
trophies and 50 donations, recorded at `R1`. -/
def c5Row : RankRow := ⟨"#M", "Mia", 1, 3000, 50, 10, 0, 0, "#C", "Clan", "R1"⟩

/-- One entry of the `deck_experimenters` leaderboard computed by
`get_clan_deck_analytics` (html_generator.py, lines 539–572): tag, name,
the `deck_changes` count, and the `MIN(first_seen)` / `MAX(last_seen)`
aggregates. -/
structure Experimenter where
  player_tag : String
  name : String
  deck_changes : Nat
  first_deck : String
  latest_deck : String
deriving DecidableEq

/-- The ordering `ORDER BY deck_changes DESC` on the leaderboard. -/
def expMoreChanges (a b : Experimenter) : Prop := b.deck_changes ≤ a.deck_changes

instance decRelExpMoreChanges : DecidableRel expMoreChanges := fun a b =>
  inferInstanceAs (Decidable (b.deck_changes ≤ a.deck_changes))

instance totalExpMoreChanges : IsTotal Experimenter expMoreChanges :=
  ⟨fun a b => le_total b.deck_changes a.deck_changes⟩

instance transExpMoreChanges : IsTrans Experimenter expMoreChanges :=
  ⟨fun _ _ _ hab hbc => le_trans hbc hab⟩

/-- SQL `MIN` over a (nonempty) group of TEXT values; the comparison goes
through `toList` so it evaluates in the kernel (it is the same
lexicographic order). -/
def minList : List String → String
  | [] => ""
  | x :: xs => xs.foldl (fun a b => if a.toList ≤ b.toList then a else b) x

/-- SQL `MAX` over a (nonempty) group of TEXT values. -/
def maxList : List String → String
  | [] => ""
  | x :: xs => xs.foldl (fun a b => if a.toList ≤ b.toList then b else a) x

/-- The `deck_experimenters` query of `get_clan_deck_analytics`
(html_generator.py, lines 540–561): the `DeckChanges` CTE groups
`clan_member_decks` by `(player_tag, name, deck_cards)`, so the outer
`COUNT(*)` per `(player_tag, name)` counts the member's *distinct* deck
fingerprints; `MIN(first_seen)` and `MAX(last_seen)` aggregate over the
member's rows, and the result is ordered by `deck_changes DESC`. -/
def deck_experimenters (rows : List DeckRow) : List Experimenter :=
  List.insertionSort expMoreChanges
    (((rows.map fun r => (r.player_tag, r.name)).dedup).map fun k =>
      { player_tag := k.1, name := k.2,
        deck_changes :=
          (((rows.filter fun r => r.player_tag == k.1 && r.name == k.2).map
            DeckRow.deck_cards).dedup).length,
        first_deck :=
          minList ((rows.filter fun r => r.player_tag == k.1 && r.name == k.2).map
            DeckRow.first_seen),
        latest_deck :=
          maxList ((rows.filter fun r => r.player_tag == k.1 && r.name == k.2).map
            DeckRow.last_seen) })

/-- The projection of a `clan_member_decks` row onto the columns the
member page's history query selects. -/
def snapOfDeckRow (r : DeckRow) : Snap :=
  ⟨r.deck_cards, r.favorite_card, r.arena_name, r.league_name, r.exp_level, r.trophies,
    r.best_trophies, r.first_seen, r.last_seen⟩

/-- Concrete `clan_member_decks` row for the C7 counterexample. -/
def mkDeckRow (deck t : String) : DeckRow :=
  { player_tag := "#E", name := "Eve", deck_cards := deck, favorite_card := "Knight",
    arena_id := none, arena_name := none, league_id := none, league_name := none,
    exp_level := 10, trophies := 100, best_trophies := 100, first_seen := t, last_seen := t,
    clan_tag := "#C", clan_name := "Clan" }

/-- The C7 counterexample history: deck A at t1, deck B at t2, deck A
again at t3 — three consolidated periods but only two distinct
fingerprints. -/
def c7Rows : List DeckRow :=
  [mkDeckRow "A | B" "t1", mkDeckRow "C | D" "t2", mkDeckRow "A | B" "t3"]

/-- SQLite's `ROUND(x, 2)` modelled on the rationals: round half-up to
two decimal places.  All values the claims touch are nonnegative, where
half-up and SQLite's half-away-from-zero agree. -/
def round2 (q : ℚ) : ℚ := (⌊q * 100 + 1 / 2⌋ : Int) / 100

/-- A row of the `deck_performance` SQL view (analyzer.py,
lines 157–172), column for column. -/
structure DeckPerf where
  deck_cards : String
  total_battles : Nat
  wins : Nat
  losses : Nat
  win_rate : ℚ
  total_trophy_change : Int
  avg_trophy_change : ℚ
  avg_crowns : ℚ
deriving DecidableEq

/-- The aggregates of one `GROUP BY deck_cards` group of the
`deck_performance` view (analyzer.py, lines 159–167): `COUNT(*)`, the
win/loss `SUM(CASE ...)` counters, `win_rate = ROUND(AVG(CASE WHEN
result = 'victory' THEN 1.0 ELSE 0.0 END) * 100, 2)`,
`SUM(COALESCE(trophy_change, 0))`, `ROUND(AVG(COALESCE(trophy_change,
0)), 2)` and `ROUND(AVG(crowns), 2)`. -/
def mkDeckPerf (fp : String) (group : List BattleRow) : DeckPerf :=
  { deck_cards := fp,
    total_battles := group.length,
    wins := (group.filter fun b => b.result == "victory").length,
    losses := (group.filter fun b => b.result == "defeat").length,
    win_rate := round2 (((group.map fun b =>
        if b.result == "victory" then (1 : ℚ) else 0).sum / (group.length : ℚ)) * 100),
    total_trophy_change := (group.map fun b => b.trophy_change.getD 0).sum,
    avg_trophy_change := round2 ((group.map fun b =>
        ((b.trophy_change.getD 0 : Int) : ℚ)).sum / (group.length : ℚ)),
    avg_crowns := round2 ((group.map fun b => (b.crowns : ℚ)).sum / (group.length : ℚ)) }

/-- The view's ordering `ORDER BY win_rate DESC, total_battles DESC`. -/
def perfOrder (a b : DeckPerf) : Prop :=
  b.win_rate < a.win_rate ∨ (a.win_rate = b.win_rate ∧ b.total_battles ≤ a.total_battles)

instance decRelPerfOrder : DecidableRel perfOrder := fun a b =>
  inferInstanceAs (Decidable (b.win_rate < a.win_rate ∨
    (a.win_rate = b.win_rate ∧ b.total_battles ≤ a.total_battles)))

instance totalPerfOrder : IsTotal DeckPerf perfOrder := by
  refine ⟨fun a b => ?_⟩
  rcases lt_trichotomy a.win_rate b.win_rate with h | h | h
  · exact Or.inr (Or.inl h)
  · rcases le_total b.total_battles a.total_battles with ht | ht
    · exact Or.inl (Or.inr ⟨h, ht⟩)
    · exact Or.inr (Or.inr ⟨h.symm, ht⟩)
  · exact Or.inl (Or.inl h)

instance transPerfOrder : IsTrans DeckPerf perfOrder := by
  refine ⟨fun a b c hab hbc => ?_⟩
  rcases hab with hab | ⟨hab1, hab2⟩
  · rcases hbc with hbc | ⟨hbc1, hbc2⟩
    · exact Or.inl (lt_trans hbc hab)
    · exact Or.inl (hbc1 ▸ hab)
  · rcases hbc with hbc | ⟨hbc1, hbc2⟩
    · exact Or.inl (hab1 ▸ hbc)
    · exact Or.inr ⟨hab1.trans hbc1, le_trans hbc2 hab2⟩

/-- The `deck_performance` view (analyzer.py, lines 157–172): group the
battles by `deck_cards`, compute the per-group aggregates, and order by
win rate descending then battle count descending.  The view's
`WHERE deck_cards IS NOT NULL` is vacuous here: every row `save_battles`
writes carries a (possibly empty) fingerprint string. -/
def deck_performance (table : List BattleRow) : List DeckPerf :=
  List.insertionSort perfOrder
    (((table.map BattleRow.deck_cards).dedup).map fun fp =>
      mkDeckPerf fp (table.filter fun b => b.deck_cards == fp))

/-- `GitHubPagesHTMLGenerator.get_deck_performance` (html_generator.py,
lines 165–184): `SELECT * FROM deck_performance WHERE total_battles >= 3
ORDER BY win_rate DESC, total_battles DESC LIMIT ?`. -/
def get_deck_performance (table : List BattleRow) (limit : Nat) : List DeckPerf :=
  List.take limit
    (List.insertionSort perfOrder
      ((deck_performance table).filter fun p => decide (3 ≤ p.total_battles)))

/-- A concrete battle row for the C6 scenario. -/
def mkC6Battle (deck res : String) (tc : Int) (t : String) : BattleRow :=
  { player_tag := "#P", battle_time := t, battle_type := some "PvP",
    game_mode := some "Ladder", is_ladder_tournament := false, arena_id := none,
    arena_name := none, result := res, crowns := 1, king_tower_hit_points := none,
    princess_towers_hit_points := [], deck_cards := deck, deck_card_levels := [],
    opponent_tag := none, opponent_name := none, opponent_trophies := none,
    opponent_deck_cards := none, opponent_deck_card_levels := none,
    opponent_clan_tag := none, opponent_clan_name := none, player_level := none,
    opponent_level := none, battle_duration_seconds := none, trophy_change := some tc }

/-- The C6 scenario battles: deck A,B wins +10 then loses −8; deck C,D
wins +12. -/
def c6Battles : List BattleRow :=
  [mkC6Battle "A | B" "victory" 10 "t1", mkC6Battle "A | B" "defeat" (-8) "t2",
   mkC6Battle "C | D" "victory" 12 "t3"]

/-- One record of the daily activity aggregation produced by
`get_daily_battle_stats` (html_generator.py, lines 361–369): the
calendar day and the day's win/loss/draw/total counters.  Calendar days
are modelled as integer day numbers (days since an arbitrary epoch), the
arithmetic `DATE('now', '-k days')` / `DATE(date, '+1 day')` being
integer subtraction/increment on them. -/
structure DayStat where
  date : Int
  wins : Nat
  losses : Nat
  draws : Nat
  total_battles : Nat
deriving DecidableEq

/-- The recursive `date_range` CTE of `get_daily_battle_stats`
(html_generator.py, lines 339–346): starting from `d`, keep adding one
day while the previous day is before `today`; both endpoints are
included. -/
def date_range_from (d today : Int) : List Int :=
  if h : d < today then d :: date_range_from (d + 1) today else [d]
termination_by (today - d).toNat
decreasing_by omega

/-- `GitHubPagesHTMLGenerator.get_daily_battle_stats` (html_generator.py,
lines 330–372): one record per day of
`date_range_from (today - (days_limit - 1)) today`, counting the stored
battles whose `battle_time` falls on that day (`dayOf` abstracts the
`SUBSTR`-based conversion of the stored `battle_time` string to its
calendar day; the LEFT JOIN plus `COALESCE(SUM(...), 0)` is the count
over the day's possibly empty battle set). -/
def get_daily_battle_stats (dayOf : String → Int) (today : Int) (days_limit : Nat)
    (table : List BattleRow) : List DayStat :=
  (date_range_from (today - ((days_limit : Int) - 1)) today).map fun d =>
    { date := d,
      wins := ((table.filter fun b => dayOf b.battle_time == d).filter
          fun b => b.result == "victory").length,
      losses := ((table.filter fun b => dayOf b.battle_time == d).filter
          fun b => b.result == "defeat").length,
      draws := ((table.filter fun b => dayOf b.battle_time == d).filter
          fun b => b.result == "draw").length,
      total_battles := (table.filter fun b => dayOf b.battle_time == d).length }

/-- C9: For every list of cards and every permutation of that list,
`format_deck` returns the identical string — the card names sorted
lexicographically and joined with the fixed delimiter — so two decks with
the same card composition in different equip order always produce equal
fingerprints. -/
theorem format_deck_perm_invariant (l₁ l₂ : List Card) (h : l₁.Perm l₂) :
    format_deck l₁ = format_deck l₂ := by
  unfold format_deck
  refine congrArg _ ?_
  have hp : (List.insertionSort (· ≤ ·) (l₁.map Card.name)).Perm
      (List.insertionSort (· ≤ ·) (l₂.map Card.name)) :=
    ((List.perm_insertionSort _ _).trans (h.map Card.name)).trans
      (List.perm_insertionSort _ _).symm
  have hs₁ : List.Sorted (fun a b : String => a ≤ b)
      (List.insertionSort (· ≤ ·) (l₁.map Card.name)) :=
    List.sorted_insertionSort _ _
  have hs₂ : List.Sorted (fun a b : String => a ≤ b)
      (List.insertionSort (· ≤ ·) (l₂.map Card.name)) :=
    List.sorted_insertionSort _ _
  exact List.eq_of_perm_of_sorted hp hs₁ hs₂

/-- Witness for C9 at a concrete pair of permuted decks. -/
theorem format_deck_perm_invariant_witness :
    ([⟨"Knight", 1, 14, false, none⟩, ⟨"Archers", 1, 14, false, none⟩] : List Card).Perm
        [⟨"Archers", 1, 14, false, none⟩, ⟨"Knight", 1, 14, false, none⟩] ∧
      format_deck [⟨"Knight", 1, 14, false, none⟩, ⟨"Archers", 1, 14, false, none⟩] =
        format_deck [⟨"Archers", 1, 14, false, none⟩, ⟨"Knight", 1, 14, false, none⟩] :=
  ⟨by decide, format_deck_perm_invariant _ _ (by decide)⟩

theorem mergeSnap_deck_cards (c r : Snap) : (mergeSnap c r).deck_cards = c.deck_cards := rfl

theorem mergeSnap_first_seen (c r : Snap) : (mergeSnap c r).first_seen = c.first_seen := rfl

theorem foldl_mergeSnap_deck_cards (rest : List Snap) :
    ∀ c : Snap, (rest.foldl mergeSnap c).deck_cards = c.deck_cards := by
  induction rest with
  | nil => intro c; rfl
  | cons r rs ih => intro c; rw [List.foldl_cons, ih, mergeSnap_deck_cards]

theorem foldl_mergeSnap_first_seen (rest : List Snap) :
    ∀ c : Snap, (rest.foldl mergeSnap c).first_seen = c.first_seen := by
  induction rest with
  | nil => intro c; rfl
  | cons r rs ih => intro c; rw [List.foldl_cons, ih, mergeSnap_first_seen]

theorem foldl_mergeSnap_last_seen (rest : List Snap) :
    ∀ c : Snap, (rest.foldl mergeSnap c).last_seen = (rest.getLastD c).last_seen := by
  induction rest with
  | nil => intro c; rfl
  | cons r rs ih =>
    intro c
    rw [List.foldl_cons, ih, List.getLastD_cons]
    cases rs with
    | nil => rfl
    | cons x xs => rw [List.getLastD_cons, List.getLastD_cons]

theorem runsAux_congr (s s' : Snap) (h : s.deck_cards = s'.deck_cards) (ts : List Snap) :
    runsAux s ts = runsAux s' ts := by
  cases ts with
  | nil => rfl
  | cons t ts => simp only [runsAux, h]

theorem consolidateGo_some (ss : List Snap) :
    ∀ c : Snap,
      consolidateGo (some c) ss =
        periodOfRun (c :: (runsAux c ss).1) :: ((runsAux c ss).2).map periodOfRun := by
  induction ss with
  | nil => intro c; rfl
  | cons t ts ih =>
    intro c
    by_cases h : c.deck_cards = t.deck_cards
    · have hne : ¬ c.deck_cards ≠ t.deck_cards := not_not_intro h
      have hmerge : (mergeSnap c t).deck_cards = t.deck_cards := by
        rw [mergeSnap_deck_cards, h]
      simp only [consolidateGo, if_neg hne, ih (mergeSnap c t),
        runsAux_congr (mergeSnap c t) t hmerge, runsAux, if_pos h, periodOfRun,
        List.foldl_cons]
    · simp only [consolidateGo, if_pos h, ih t, runsAux, if_neg h, List.map_cons, periodOfRun,
        List.foldl_nil]

theorem get_member_deck_history_eq_runs (snaps : List Snap) :
    get_member_deck_history snaps = (((runs snaps).map periodOfRun)).reverse := by
  cases snaps with
  | nil => rfl
  | cons s ss =>
    show (consolidateGo (some s) ss).reverse = _
    rw [consolidateGo_some]
    rfl

theorem runsAux_flatten (ts : List Snap) :
    ∀ s : Snap, (runsAux s ts).1 ++ ((runsAux s ts).2).flatten = ts := by
  induction ts with
  | nil => intro s; rfl
  | cons t ts ih =>
    intro s
    by_cases h : s.deck_cards = t.deck_cards
    · simp only [runsAux, if_pos h, List.cons_append, ih t]
    · simp only [runsAux, if_neg h, List.nil_append, List.flatten_cons, List.cons_append,
        List.nil_append, ih t]

theorem runs_flatten (snaps : List Snap) : (runs snaps).flatten = snaps := by
  cases snaps with
  | nil => rfl
  | cons s ss =>
    show ((s :: (runsAux s ss).1) :: (runsAux s ss).2).flatten = s :: ss
    rw [List.flatten_cons, List.cons_append, runsAux_flatten]

theorem consolidateGo_chain (ss : List Snap) :
    ∀ c : Snap,
      (consolidateGo (some c) ss).Chain' (fun p q => p.deck_cards ≠ q.deck_cards) ∧
        (consolidateGo (some c) ss).head?.map Snap.deck_cards = some c.deck_cards := by
  induction ss with
  | nil => intro c; exact ⟨List.chain'_singleton _, rfl⟩
  | cons t ts ih =>
    intro c
    by_cases h : c.deck_cards = t.deck_cards
    · have hne : ¬ c.deck_cards ≠ t.deck_cards := not_not_intro h
      have hm := ih (mergeSnap c t)
      refine ⟨?_, ?_⟩
      · simpa only [consolidateGo, if_neg hne] using hm.1
      · have hd : (mergeSnap c t).deck_cards = c.deck_cards := rfl
        simpa only [consolidateGo, if_neg hne, hd] using hm.2
    · have ht := ih t
      have hres : consolidateGo (some c) (t :: ts) = c :: consolidateGo (some t) ts := by
        simp only [consolidateGo, if_pos h]
      rw [hres]
      constructor
      · rw [List.chain'_cons']
        refine ⟨?_, ht.1⟩
        intro y hy
        have h2 := ht.2
        rw [hy] at h2
        simp only [Option.map_some'] at h2
        intro hcy
        exact h (hcy.trans (Option.some.inj h2))
      · rfl

theorem history_chain (snaps : List Snap) :
    (get_member_deck_history snaps).Chain' (fun p q => p.deck_cards ≠ q.deck_cards) := by
  cases snaps with
  | nil => exact List.chain'_nil
  | cons s ss =>
    show ((consolidateGo (some s) ss).reverse).Chain' _
    rw [List.chain'_reverse]
    exact ((consolidateGo_chain ss s).1).imp fun _ _ hab => Ne.symm hab

theorem runsAux_periods_sublist (ts : List Snap) :
    ∀ s : Snap,
      (((runsAux s ts).2).map fun r => (periodOfRun r).first_seen).Sublist
        (ts.map Snap.first_seen) := by
  induction ts with
  | nil => intro s; simp [runsAux]
  | cons t ts ih =>
    intro s
    by_cases h : s.deck_cards = t.deck_cards
    · simp only [runsAux, if_pos h, List.map_cons]
      exact (ih t).cons _
    · simp only [runsAux, if_neg h, List.map_cons]
      have hfs : (periodOfRun (t :: (runsAux t ts).1)).first_seen = t.first_seen := by
        show ((runsAux t ts).1.foldl mergeSnap t).first_seen = t.first_seen
        exact foldl_mergeSnap_first_seen _ t
      rw [hfs]
      exact (ih t).cons₂ _

theorem history_periods_first_seen_sublist (snaps : List Snap) :
    (((runs snaps).map fun r => (periodOfRun r).first_seen).Sublist
      (snaps.map Snap.first_seen)) := by
  cases snaps with
  | nil => simp [runs]
  | cons s ss =>
    show ((periodOfRun (s :: (runsAux s ss).1)).first_seen ::
        ((runsAux s ss).2).map fun r => (periodOfRun r).first_seen).Sublist
      (s.first_seen :: ss.map Snap.first_seen)
    have hfs : (periodOfRun (s :: (runsAux s ss).1)).first_seen = s.first_seen :=
      foldl_mergeSnap_first_seen _ s
    rw [hfs]
    exact (runsAux_periods_sublist ss s).cons₂ _

theorem history_antitone (snaps : List Snap)
    (hs : (snaps.map Snap.first_seen).Pairwise (· ≤ ·)) :
    ((get_member_deck_history snaps).map Snap.first_seen).Pairwise (fun a b => b ≤ a) := by
  rw [get_member_deck_history_eq_runs, List.map_reverse, List.pairwise_reverse]
  have : ((runs snaps).map periodOfRun).map Snap.first_seen
      = (runs snaps).map fun r => (periodOfRun r).first_seen := by
    rw [List.map_map]; rfl
  rw [this]
  exact hs.sublist (history_periods_first_seen_sublist snaps)

/-- C1: For every member and every time-ordered sequence of stored deck
snapshots, `get_member_deck_history` groups the sequence into maximal
runs of consecutive equal deck fingerprints, one period per run: the
result is the reversed (most-recent-first) image of `periodOfRun` over
`runs`, the runs concatenate back to the whole sequence (each snapshot
covered exactly once), no two adjacent periods share a fingerprint, each
period spans its run's first `first_seen` to its run's last `last_seen`,
the output `first_seen`s are antitone when the input is chronological,
zero snapshots give the empty list, and on the A,B / A,B / C,D / C,D /
A,B scenario exactly 3 periods result. -/
theorem get_member_deck_history_consolidates :
    (∀ snaps : List Snap,
        get_member_deck_history snaps = (((runs snaps).map periodOfRun)).reverse ∧
        (runs snaps).flatten = snaps ∧
        (get_member_deck_history snaps).Chain' (fun p q => p.deck_cards ≠ q.deck_cards) ∧
        ((snaps.map Snap.first_seen).Pairwise (· ≤ ·) →
          ((get_member_deck_history snaps).map Snap.first_seen).Pairwise (fun a b => b ≤ a))) ∧
    (∀ (s : Snap) (rest : List Snap),
        (periodOfRun (s :: rest)).deck_cards = s.deck_cards ∧
        (periodOfRun (s :: rest)).first_seen = s.first_seen ∧
        (periodOfRun (s :: rest)).last_seen = (rest.getLastD s).last_seen) ∧
    get_member_deck_history ([] : List Snap) = [] ∧
    (get_member_deck_history scenarioC1).map Snap.deck_cards = ["A | B", "C | D", "A | B"] ∧
    (get_member_deck_history scenarioC1).length = 3 := by
  refine ⟨?_, ?_, rfl, by decide, by decide⟩
  · intro snaps
    exact ⟨get_member_deck_history_eq_runs snaps, runs_flatten snaps, history_chain snaps,
      history_antitone snaps⟩
  · intro s rest
    exact ⟨foldl_mergeSnap_deck_cards rest s, foldl_mergeSnap_first_seen rest s,
      foldl_mergeSnap_last_seen rest s⟩

/-- Witness for C1: the scenario input is chronological and the returned
periods are most-recent-first. -/
theorem get_member_deck_history_consolidates_witness :
    (scenarioC1.map Snap.first_seen).Pairwise (· ≤ ·) ∧
      ((get_member_deck_history scenarioC1).map Snap.first_seen).Pairwise (fun a b => b ≤ a) := by
  have h : (scenarioC1.map Snap.first_seen).Pairwise (· ≤ ·) := by
    refine List.chain'_iff_pairwise.mp ?_
    simp only [scenarioC1, mkSnap, List.map_cons, List.map_nil, List.chain'_cons,
      List.chain'_singleton, and_true, String.le_iff_toList_le]
    exact ⟨by decide, by decide, by decide, by decide⟩
  exact ⟨h, (get_member_deck_history_consolidates.1 scenarioC1).2.2.2 h⟩

theorem updateLastDeck_spec (tag : String) (f : DeckRow → DeckRow) :
    ∀ (table : List DeckRow) (r : DeckRow),
      lastDeckRecord tag table = some r →
      ∃ l₁ l₂, table = l₁ ++ r :: l₂ ∧ r.player_tag = tag ∧
        (∀ x ∈ l₂, x.player_tag ≠ tag) ∧
        updateLastDeck tag f table = l₁ ++ f r :: l₂ := by
  intro table
  induction table with
  | nil => intro r h; exact absurd h (by simp [lastDeckRecord])
  | cons x xs ih =>
    intro r h
    by_cases ha : xs.any (fun y => y.player_tag == tag) = true
    · have hne : xs.filter (fun y => y.player_tag == tag) ≠ [] := by
        obtain ⟨y, hy, hpy⟩ := List.any_eq_true.mp ha
        exact List.ne_nil_of_mem (List.mem_filter.mpr ⟨hy, hpy⟩)
      have hlast : lastDeckRecord tag xs = some r := by
        unfold lastDeckRecord at h ⊢
        rw [List.filter_cons] at h
        by_cases hx : (x.player_tag == tag) = true
        · rw [if_pos hx] at h
          cases hfe : xs.filter (fun y => y.player_tag == tag) with
          | nil => exact absurd hfe hne
          | cons z zs => rw [hfe] at h; rw [List.getLast?_cons_cons] at h; exact h
        · rw [if_neg hx] at h; exact h
      obtain ⟨l₁, l₂, he, hr, hn, hu⟩ := ih r hlast
      refine ⟨x :: l₁, l₂, by rw [he, List.cons_append], hr, hn, ?_⟩
      show updateLastDeck tag f (x :: xs) = (x :: l₁) ++ f r :: l₂
      rw [List.cons_append]
      simp only [updateLastDeck, if_pos ha, hu]
    · have hfil : xs.filter (fun y => y.player_tag == tag) = [] := by
        rw [List.filter_eq_nil_iff]
        intro a hael hpa
        exact ha (List.any_eq_true.mpr ⟨a, hael, hpa⟩)
      by_cases hx : (x.player_tag == tag) = true
      · have hfx : lastDeckRecord tag (x :: xs) = some x := by
          unfold lastDeckRecord
          rw [List.filter_cons, if_pos hx, hfil]
          rfl
        have hrx : r = x := by rw [h] at hfx; exact Option.some.inj hfx
        refine ⟨[], xs, by rw [hrx]; simp, by rw [hrx]; exact beq_iff_eq.mp hx, ?_, ?_⟩
        · intro y hy hpy
          exact ha (List.any_eq_true.mpr ⟨y, hy, beq_iff_eq.mpr hpy⟩)
        · show updateLastDeck tag f (x :: xs) = [] ++ f r :: xs
          rw [hrx]
          simp only [updateLastDeck, if_neg ha, if_pos hx, List.nil_append]
      · have hnone : lastDeckRecord tag (x :: xs) = none := by
          unfold lastDeckRecord
          rw [List.filter_cons, if_neg hx, hfil]
          rfl
        rw [h] at hnone
        exact absurd hnone (by simp)

/-- C2 counterexample: the claim says a same-fingerprint observation
updates the latest row's favorite card, arena and trophies.  On the
concrete state `[c2Row]` (deck `A | B`, Arena 1, 100 trophies) and the
observation `c2Player` (same deck `A | B`, Arena 2, 999 trophies), the
code leaves trophies at 100 and the arena at Arena 1 — only `last_seen`
and `favorite_card` change. -/
theorem save_clan_member_deck_cosmetics_cex :
    (save_clan_member_deck_if_changed c2Player "#C" "TheClan" "T2" [c2Row]).map
        DeckRow.trophies = [100] ∧
      (save_clan_member_deck_if_changed c2Player "#C" "TheClan" "T2" [c2Row]).map
        DeckRow.arena_name = [some "Arena 1"] ∧
      (save_clan_member_deck_if_changed c2Player "#C" "TheClan" "T2" [c2Row]).map
        DeckRow.favorite_card = ["Pekka"] ∧
      (save_clan_member_deck_if_changed c2Player "#C" "TheClan" "T2" [c2Row]).map
        DeckRow.last_seen = ["T2"] ∧
      (save_clan_member_deck_if_changed c2Player "#C" "TheClan" "T2" [c2Row]).length = 1 ∧
      c2Player.trophies = 999 ∧ c2Player.arena_name = some "Arena 2" ∧
      (100 : Int) ≠ 999 ∧ (some "Arena 1" : Option String) ≠ some "Arena 2" := by
  decide

/-- C2 (amended): when the observed fingerprint equals the latest stored
row's fingerprint, no row is inserted — the latest row is updated in
place, with only `last_seen` and `favorite_card` set to the new
observation's values and every other field (including arena and
trophies) unchanged, and all other rows untouched; a new row (with
`first_seen = last_seen = now`) is appended exactly when there is no
prior row or the fingerprint differs. -/
theorem save_clan_member_deck_if_changed_correct :
    (∀ (pd : PlayerData) (ct cn now : String) (table : List DeckRow) (r : DeckRow),
        lastDeckRecord pd.tag table = some r →
        r.deck_cards = format_deck pd.currentDeck →
        ∃ l₁ l₂, table = l₁ ++ r :: l₂ ∧ (∀ x ∈ l₂, x.player_tag ≠ pd.tag) ∧
          save_clan_member_deck_if_changed pd ct cn now table =
            l₁ ++ { r with last_seen := now, favorite_card := pd.favouriteCardName } :: l₂) ∧
    (∀ (pd : PlayerData) (ct cn now : String) (table : List DeckRow),
        (lastDeckRecord pd.tag table = none ∨
          ∃ r, lastDeckRecord pd.tag table = some r ∧
            r.deck_cards ≠ format_deck pd.currentDeck) →
        save_clan_member_deck_if_changed pd ct cn now table =
          table ++ [{ player_tag := pd.tag, name := pd.name,
                      deck_cards := format_deck pd.currentDeck,
                      favorite_card := pd.favouriteCardName, arena_id := pd.arena_id,
                      arena_name := pd.arena_name, league_id := pd.league.bind League.id,
                      league_name := pd.league.bind League.name, exp_level := pd.expLevel,
                      trophies := pd.trophies, best_trophies := pd.bestTrophies,
                      first_seen := now, last_seen := now, clan_tag := ct, clan_name := cn }]) := by
  constructor
  · intro pd ct cn now table r hlast hfp
    obtain ⟨l₁, l₂, he, _, hn, hu⟩ := updateLastDeck_spec pd.tag
      (fun x => { x with last_seen := now, favorite_card := pd.favouriteCardName }) table r hlast
    refine ⟨l₁, l₂, he, hn, ?_⟩
    have hss : (match lastDeckRecord pd.tag table with
        | none => true
        | some r => r.deck_cards != format_deck pd.currentDeck) = false := by
      rw [hlast]
      simp [hfp]
    unfold save_clan_member_deck_if_changed
    rw [hss]
    simpa using hu
  · intro pd ct cn now table hcase
    have hss : (match lastDeckRecord pd.tag table with
        | none => true
        | some r => r.deck_cards != format_deck pd.currentDeck) = true := by
      rcases hcase with hnone | ⟨r, hsome, hne⟩
      · rw [hnone]
      · rw [hsome]
        simpa using hne
    unfold save_clan_member_deck_if_changed
    rw [hss]
    simp

/-- Witness for C2 at the concrete state `[c2Row]` and observation
`c2Player`. -/
theorem save_clan_member_deck_if_changed_correct_witness :
    lastDeckRecord c2Player.tag [c2Row] = some c2Row ∧
      c2Row.deck_cards = format_deck c2Player.currentDeck ∧
      ∃ l₁ l₂, ([c2Row] : List DeckRow) = l₁ ++ c2Row :: l₂ ∧
        (∀ x ∈ l₂, x.player_tag ≠ c2Player.tag) ∧
        save_clan_member_deck_if_changed c2Player "#C" "TheClan" "T2" [c2Row] =
          l₁ ++ { c2Row with last_seen := "T2",
                             favorite_card := c2Player.favouriteCardName } :: l₂ :=
  ⟨by decide, by decide,
    save_clan_member_deck_if_changed_correct.1 c2Player "#C" "TheClan" "T2" [c2Row] c2Row
      (by decide) (by decide)⟩

theorem result_iff (p o : Nat) :
    ((if p > o then "victory" else if p < o then "defeat" else "draw") = "victory" ↔ o < p) ∧
      ((if p > o then "victory" else if p < o then "defeat" else "draw") = "defeat" ↔ p < o) ∧
      ((if p > o then "victory" else if p < o then "defeat" else "draw") = "draw" ↔ p = o) := by
  split_ifs with h1 h2
  · exact ⟨⟨fun _ => h1, fun _ => rfl⟩,
      ⟨fun hc => absurd hc (by decide), fun hlt => absurd h1 (by omega)⟩,
      ⟨fun hc => absurd hc (by decide), fun heq => absurd h1 (by omega)⟩⟩
  · exact ⟨⟨fun hc => absurd hc (by decide), fun hlt => absurd h2 (by omega)⟩,
      ⟨fun _ => h2, fun _ => rfl⟩,
      ⟨fun hc => absurd hc (by decide), fun heq => absurd h2 (by omega)⟩⟩
  · exact ⟨⟨fun hc => absurd hc (by decide), fun hlt => absurd hlt (by omega)⟩,
      ⟨fun hc => absurd hc (by decide), fun hlt => absurd hlt (by omega)⟩,
      ⟨fun _ => by omega, fun _ => rfl⟩⟩

/-- C8: a raw battle whose team array has no entry with the ingesting
player's tag is silently skipped by `save_battles` — nothing is inserted
for it and the remaining battles are processed on the unchanged table;
when the player's team is found, the stored result is `"victory"` iff
the player's crowns exceed the first opponent's, `"defeat"` iff fewer,
`"draw"` iff equal. -/
theorem save_battles_skip_and_result :
    (∀ (tag : String) (b : RawBattle),
        b.team.find? (fun t => t.tag == some tag) = none → processBattle tag b = none) ∧
      (∀ (tag : String) (b : RawBattle) (rest : List RawBattle) (table : List BattleRow),
          processBattle tag b = none →
          save_battles tag (b :: rest) table = save_battles tag rest table) ∧
      (∀ (tag : String) (b : RawBattle) (pt : RawTeam) (row : BattleRow),
          b.team.find? (fun t => t.tag == some tag) = some pt →
          processBattle tag b = some row →
          ((row.result = "victory" ↔ oppCrowns b < pt.crowns) ∧
            (row.result = "defeat" ↔ pt.crowns < oppCrowns b) ∧
            (row.result = "draw" ↔ pt.crowns = oppCrowns b))) := by
  refine ⟨?_, ?_, ?_⟩
  · intro tag b hfind
    unfold processBattle
    rw [hfind]
  · intro tag b rest table hnone
    unfold save_battles
    rw [List.foldl_cons, hnone]
  · intro tag b pt row hfind hrow
    unfold processBattle at hrow
    rw [hfind] at hrow
    have hr : row =
        { player_tag := tag, battle_time := b.battleTime, battle_type := b.type,
          game_mode := b.gameModeName, is_ladder_tournament := b.isLadderTournament,
          arena_id := b.arenaId, arena_name := b.arenaName,
          result :=
            if pt.crowns > oppCrowns b then "victory"
            else if pt.crowns < oppCrowns b then "defeat"
            else "draw",
          crowns := pt.crowns, king_tower_hit_points := pt.kingTowerHitPoints,
          princess_towers_hit_points := pt.princessTowersHitPoints,
          deck_cards := format_deck pt.cards,
          deck_card_levels := format_deck_with_levels pt.cards,
          opponent_tag := b.opponent.head?.bind RawTeam.tag,
          opponent_name := b.opponent.head?.bind RawTeam.name,
          opponent_trophies := b.opponent.head?.bind RawTeam.startingTrophies,
          opponent_deck_cards := b.opponent.head?.map fun o => format_deck o.cards,
          opponent_deck_card_levels :=
            b.opponent.head?.map fun o => format_deck_with_levels o.cards,
          opponent_clan_tag := b.opponent.head?.bind fun o => o.clan.bind TeamClan.tag,
          opponent_clan_name := b.opponent.head?.bind fun o => o.clan.bind TeamClan.name,
          player_level := pt.expLevel,
          opponent_level := b.opponent.head?.bind RawTeam.expLevel,
          battle_duration_seconds := calculate_battle_duration b,
          trophy_change := pt.trophyChange } := (Option.some.inj hrow).symm
    rw [hr]
    exact result_iff pt.crowns (oppCrowns b)

/-- Witness for C8 at the concrete battle `c8Battle`. -/
theorem save_battles_skip_and_result_witness :
    c8Battle.team.find? (fun t => t.tag == some "#P") = some c8Team ∧
      processBattle "#P" c8Battle = some c8Row ∧
      ((c8Row.result = "victory" ↔ oppCrowns c8Battle < c8Team.crowns) ∧
        (c8Row.result = "defeat" ↔ c8Team.crowns < oppCrowns c8Battle) ∧
        (c8Row.result = "draw" ↔ c8Team.crowns = oppCrowns c8Battle)) :=
  ⟨by decide, by decide,
    save_battles_skip_and_result.2.2 "#P" c8Battle c8Team c8Row (by decide) (by decide)⟩

theorem save_battles_single (tag : String) (b : RawBattle) (row : BattleRow)
    (table : List BattleRow) (hproc : processBattle tag b = some row)
    (hnc : ¬ ∃ r ∈ table, battleConflict r row = true) :
    save_battles tag [b] table = table ++ [row] := by
  have hany : (table.any fun r => battleConflict r row) = false := by
    rw [List.any_eq_false]
    intro r hr hc
    exact hnc ⟨r, hr, hc⟩
  unfold save_battles
  rw [List.foldl_cons, List.foldl_nil, hproc]
  show insertBattle table row = table ++ [row]
  unfold insertBattle
  rw [if_neg (by simp [hany])]

/-- C10: a raw battle that contains the player's team but an empty
opponents list is not skipped: `processBattle` produces a row whose
opponent fields (tag, name, trophies, deck cards, deck levels, clan
tag/name, level) are all `NULL`, whose result treats the opponent's
crowns as `0` — `"victory"` when the player has at least one crown,
`"draw"` when zero — and the row is appended to the table whenever its
key does not collide with a stored row. -/
theorem save_battles_empty_opponents :
    ∀ (tag : String) (b : RawBattle) (pt : RawTeam),
      b.team.find? (fun t => t.tag == some tag) = some pt →
      b.opponent = [] →
      ∃ row, processBattle tag b = some row ∧
        row.opponent_tag = none ∧ row.opponent_name = none ∧
        row.opponent_trophies = none ∧ row.opponent_deck_cards = none ∧
        row.opponent_deck_card_levels = none ∧ row.opponent_clan_tag = none ∧
        row.opponent_clan_name = none ∧ row.opponent_level = none ∧
        row.result = (if 0 < pt.crowns then "victory" else "draw") ∧
        ∀ table : List BattleRow,
          (¬ ∃ r ∈ table, battleConflict r row = true) →
          save_battles tag [b] table = table ++ [row] := by
  intro tag b pt hfind hopp
  have hhead : b.opponent.head? = none := by rw [hopp]; rfl
  have hcrowns : oppCrowns b = 0 := by unfold oppCrowns; rw [hhead]
  unfold processBattle
  rw [hfind]
  refine ⟨_, rfl, ?_, ?_, ?_, ?_, ?_, ?_, ?_, ?_, ?_, ?_⟩
  · show b.opponent.head?.bind RawTeam.tag = none
    rw [hhead]; rfl
  · show b.opponent.head?.bind RawTeam.name = none
    rw [hhead]; rfl
  · show b.opponent.head?.bind RawTeam.startingTrophies = none
    rw [hhead]; rfl
  · show (b.opponent.head?.map fun o => format_deck o.cards) = none
    rw [hhead]; rfl
  · show (b.opponent.head?.map fun o => format_deck_with_levels o.cards) = none
    rw [hhead]; rfl
  · show (b.opponent.head?.bind fun o => o.clan.bind TeamClan.tag) = none
    rw [hhead]; rfl
  · show (b.opponent.head?.bind fun o => o.clan.bind TeamClan.name) = none
    rw [hhead]; rfl
  · show b.opponent.head?.bind RawTeam.expLevel = none
    rw [hhead]; rfl
  · show (if pt.crowns > oppCrowns b then "victory"
        else if pt.crowns < oppCrowns b then "defeat" else "draw")
      = (if 0 < pt.crowns then "victory" else "draw")
    rw [hcrowns]
    by_cases hp : 0 < pt.crowns
    · rw [if_pos hp, if_pos hp]
    · rw [if_neg hp, if_neg hp, if_neg (by omega)]
  · intro table hnc
    refine save_battles_single tag b _ table ?_ hnc
    unfold processBattle
    rw [hfind]

/-- Witness for C10 at the concrete battle `c10Battle` (player team
present, empty opponents). -/
theorem save_battles_empty_opponents_witness :
    ∃ row, processBattle "#P" c10Battle = some row ∧
      row.opponent_tag = none ∧ row.opponent_name = none ∧
      row.opponent_trophies = none ∧ row.opponent_deck_cards = none ∧
      row.opponent_deck_card_levels = none ∧ row.opponent_clan_tag = none ∧
      row.opponent_clan_name = none ∧ row.opponent_level = none ∧
      row.result = (if 0 < c10Team.crowns then "victory" else "draw") ∧
      ∀ table : List BattleRow,
        (¬ ∃ r ∈ table, battleConflict r row = true) →
        save_battles "#P" [c10Battle] table = table ++ [row] :=
  save_battles_empty_opponents "#P" c10Battle c10Team (by decide) (by decide)

/-- C3 counterexample: ingesting the same battle twice is claimed to be
a no-op, but for `c3Battle` (whose raw record lacks `type` and
`gameMode`, so `battle_type` and `game_mode` are `NULL`) SQLite's
`NULL`-distinct UNIQUE semantics admit a second identical row: after two
runs of `save_battles` the table holds two rows with the same
`(player_tag, battle_time, battle_type, game_mode)` values. -/
theorem save_battles_rerun_cex :
    (save_battles "#P" [c3Battle] (save_battles "#P" [c3Battle] [])).length = 2 ∧
      save_battles "#P" [c3Battle] (save_battles "#P" [c3Battle] []) ≠
        save_battles "#P" [c3Battle] [] ∧
      (save_battles "#P" [c3Battle] (save_battles "#P" [c3Battle] [])).map
        BattleRow.player_tag = ["#P", "#P"] ∧
      (save_battles "#P" [c3Battle] (save_battles "#P" [c3Battle] [])).map
        BattleRow.battle_time = ["20240101T000000.000Z", "20240101T000000.000Z"] ∧
      (save_battles "#P" [c3Battle] (save_battles "#P" [c3Battle] [])).map
        BattleRow.battle_type = [none, none] ∧
      (save_battles "#P" [c3Battle] (save_battles "#P" [c3Battle] [])).map
        BattleRow.game_mode = [none, none] := by
  decide

/-- C3 (amended): for every battle key whose `battle_type` and
`game_mode` are non-`NULL` (raw records carrying a `type` and a
`gameMode` name), the battles table holds at most one row, and
`save_battles` preserves this: it never modifies stored rows (it only
appends), and re-running it with a battle whose non-`NULL` key is
already present is a no-op for that battle.  Keys with a `NULL`
`battle_type` or `game_mode` are exempt, because SQLite UNIQUE
constraints treat `NULL` as distinct. -/
theorem save_battles_at_most_once :
    (∀ (table : List BattleRow) (row : BattleRow),
        table.Pairwise (fun r₁ r₂ => battleConflict r₁ r₂ = false) →
        (insertBattle table row).Pairwise (fun r₁ r₂ => battleConflict r₁ r₂ = false)) ∧
      (∀ (tag : String) (battles : List RawBattle) (table : List BattleRow),
          table.Pairwise (fun r₁ r₂ => battleConflict r₁ r₂ = false) →
          (save_battles tag battles table).Pairwise
            (fun r₁ r₂ => battleConflict r₁ r₂ = false)) ∧
      (∀ (table : List BattleRow) (row : BattleRow),
          ∃ l, insertBattle table row = table ++ l) ∧
      (∀ (tag : String) (b : RawBattle) (row : BattleRow) (table : List BattleRow),
          processBattle tag b = some row →
          (∃ r ∈ table, battleConflict r row = true) →
          save_battles tag [b] table = table) ∧
      (∀ (row : BattleRow) (t g : String),
          row.battle_type = some t → row.game_mode = some g →
          battleConflict row row = true) := by
  have hins : ∀ (table : List BattleRow) (row : BattleRow),
      table.Pairwise (fun r₁ r₂ => battleConflict r₁ r₂ = false) →
      (insertBattle table row).Pairwise (fun r₁ r₂ => battleConflict r₁ r₂ = false) := by
    intro table row hp
    unfold insertBattle
    by_cases ha : (table.any fun r => battleConflict r row) = true
    · rw [if_pos ha]; exact hp
    · rw [if_neg ha]
      rw [List.pairwise_append]
      refine ⟨hp, List.pairwise_singleton _ _, ?_⟩
      intro a hat b hbr
      rw [List.mem_singleton] at hbr
      subst hbr
      have := fun hc => ha (List.any_eq_true.mpr ⟨a, hat, hc⟩)
      exact Bool.eq_false_iff.mpr fun hc => this hc
  refine ⟨hins, ?_, ?_, ?_, ?_⟩
  · intro tag battles
    induction battles with
    | nil => intro table hp; exact hp
    | cons b bs ih =>
      intro table hp
      unfold save_battles
      rw [List.foldl_cons]
      show (save_battles tag bs
        (match processBattle tag b with
         | none => table
         | some row => insertBattle table row)).Pairwise _
      cases hpb : processBattle tag b with
      | none => exact ih table hp
      | some row => exact ih (insertBattle table row) (hins table row hp)
  · intro table row
    unfold insertBattle
    by_cases ha : (table.any fun r => battleConflict r row) = true
    · exact ⟨[], by rw [if_pos ha, List.append_nil]⟩
    · exact ⟨[row], by rw [if_neg ha]⟩
  · intro tag b row table hproc hex
    have hany : (table.any fun r => battleConflict r row) = true := by
      obtain ⟨r, hr, hc⟩ := hex
      exact List.any_eq_true.mpr ⟨r, hr, hc⟩
    unfold save_battles
    rw [List.foldl_cons, List.foldl_nil, hproc]
    show insertBattle table row = table
    unfold insertBattle
    rw [if_pos hany]
  · intro row t g ht hg
    unfold battleConflict optNNEq
    rw [ht, hg]
    simp

/-- Witness for C3: ingesting the well-formed battle `c8Battle` (whose
key columns are all non-`NULL`) a second time leaves the table
unchanged. -/
theorem save_battles_at_most_once_witness :
    processBattle "#P" c8Battle = some c8Row ∧
      (∃ r ∈ save_battles "#P" [c8Battle] [], battleConflict r c8Row = true) ∧
      save_battles "#P" [c8Battle] (save_battles "#P" [c8Battle] []) =
        save_battles "#P" [c8Battle] [] :=
  ⟨by decide, by decide,
    save_battles_at_most_once.2.2.2.1 "#P" c8Battle c8Row (save_battles "#P" [c8Battle] [])
      (by decide) (by decide)⟩

theorem rankInsert_of_no_conflict (table : List RankRow) (row : RankRow)
    (h : ∀ r ∈ table, ¬(r.player_tag = row.player_tag ∧ r.recorded_at = row.recorded_at)) :
    rankInsert table row = table ++ [row] := by
  have hany : (table.any fun r =>
      r.player_tag == row.player_tag && r.recorded_at == row.recorded_at) = false := by
    rw [List.any_eq_false]
    intro r hr hc
    rw [Bool.and_eq_true] at hc
    exact h r hr ⟨beq_iff_eq.mp hc.1, beq_iff_eq.mp hc.2⟩
  unfold rankInsert
  rw [if_neg (by simp [hany])]

theorem latestRankRow_mem_max (tag : String) (table : List RankRow) (p : RankRow)
    (h : latestRankRow tag table = some p) :
    p ∈ table ∧ p.player_tag = tag ∧
      ∀ r ∈ table, r.player_tag = tag → r.recorded_at ≤ p.recorded_at := by
  unfold latestRankRow at h
  cases hc : List.insertionSort recordedLater (table.filter fun r => r.player_tag == tag) with
  | nil => rw [hc] at h; exact absurd h (by simp)
  | cons q rest =>
    rw [hc] at h
    have hpq : p = q := (Option.some.inj h).symm
    subst hpq
    have hperm : (p :: rest).Perm (table.filter fun r => r.player_tag == tag) := by
      rw [← hc]; exact List.perm_insertionSort _ _
    have hmemf : p ∈ table.filter (fun r => r.player_tag == tag) :=
      hperm.mem_iff.mp (List.mem_cons_self p rest)
    have hmem := List.mem_filter.mp hmemf
    refine ⟨hmem.1, beq_iff_eq.mp hmem.2, ?_⟩
    intro r hr hrtag
    have hrf : r ∈ table.filter (fun x => x.player_tag == tag) :=
      List.mem_filter.mpr ⟨hr, beq_iff_eq.mpr hrtag⟩
    have hrs : r ∈ p :: rest := hperm.mem_iff.mpr hrf
    have hsorted : List.Sorted recordedLater (p :: rest) := by
      rw [← hc]; exact List.sorted_insertionSort _ _
    rcases List.mem_cons.mp hrs with hrq | hrrest
    · rw [hrq]
    · exact (List.sorted_cons.mp hsorted).1 r hrrest

theorem latestRankRow_none (tag : String) (table : List RankRow)
    (h : latestRankRow tag table = none) :
    ∀ r ∈ table, r.player_tag ≠ tag := by
  unfold latestRankRow at h
  have hnil : List.insertionSort recordedLater (table.filter fun r => r.player_tag == tag)
      = [] := by
    cases hc : List.insertionSort recordedLater (table.filter fun r => r.player_tag == tag) with
    | nil => rfl
    | cons q rest => rw [hc] at h; exact absurd h (by simp)
  have hfil : table.filter (fun r => r.player_tag == tag) = [] := by
    have hperm := List.perm_insertionSort recordedLater
      (table.filter fun r => r.player_tag == tag)
    rw [hnil] at hperm
    exact (hperm.symm).eq_nil
  intro r hr hrtag
  have hmem : r ∈ table.filter (fun x => x.player_tag == tag) :=
    List.mem_filter.mpr ⟨hr, beq_iff_eq.mpr hrtag⟩
  rw [hfil] at hmem
  exact absurd hmem (List.not_mem_nil r)

/-- C5: the snapshot `save_clan_rankings_history` appends for a member
has `trophy_change = donation_change = 0` when the member has no prior
row in the ranking history, and otherwise the deltas are the member's
current trophies/donations minus those of that same member's
chronologically most recent prior snapshot — which is a row of that
member, never another player's. -/
theorem save_clan_rankings_deltas :
    (∀ (ct cn now : String) (rank : Nat) (table : List RankRow) (m : Member),
        latestRankRow m.tag table = none →
        processMember ct cn now rank table m =
          table ++ [{ player_tag := m.tag, name := m.name, clan_rank := rank,
                      trophies := m.trophies, donations := m.donations,
                      donations_received := m.donationsReceived, trophy_change := 0,
                      donation_change := 0, clan_tag := ct, clan_name := cn,
                      recorded_at := now }]) ∧
      (∀ (ct cn now : String) (rank : Nat) (table : List RankRow) (m : Member) (p : RankRow),
          latestRankRow m.tag table = some p →
          (¬ ∃ r ∈ table, r.player_tag = m.tag ∧ r.recorded_at = now) →
          processMember ct cn now rank table m =
            table ++ [{ player_tag := m.tag, name := m.name, clan_rank := rank,
                        trophies := m.trophies, donations := m.donations,
                        donations_received := m.donationsReceived,
                        trophy_change := m.trophies - p.trophies,
                        donation_change := m.donations - p.donations, clan_tag := ct,
                        clan_name := cn, recorded_at := now }]) ∧
      (∀ (tag : String) (table : List RankRow) (p : RankRow),
          latestRankRow tag table = some p →
          p ∈ table ∧ p.player_tag = tag ∧
            ∀ r ∈ table, r.player_tag = tag → r.recorded_at ≤ p.recorded_at) ∧
      (∀ (ct cn now : String) (members : List Member) (table : List RankRow),
          save_clan_rankings_history ct cn now members table =
            ((List.insertionSort memberMoreTrophies members).foldl
              (fun acc m => (processMember ct cn now acc.2 acc.1 m, acc.2 + 1))
              (table, 1)).1) := by
  refine ⟨?_, ?_, latestRankRow_mem_max, fun _ _ _ _ _ => rfl⟩
  · intro ct cn now rank table m hnone
    have hno := latestRankRow_none m.tag table hnone
    unfold processMember
    rw [hnone, rankInsert_of_no_conflict table _ (fun r hr hc => hno r hr hc.1)]
  · intro ct cn now rank table m p hsome hnc
    unfold processMember
    rw [hsome, rankInsert_of_no_conflict table _ (fun r hr hc => hnc ⟨r, hr, hc.1, hc.2⟩)]

/-- Witness for C5: a second refresh of player `#M` (3100 trophies,
80 donations) against the stored snapshot `c5Row` (3000 trophies,
50 donations) appends a snapshot with `trophy_change = 100` and
`donation_change = 30`. -/
theorem save_clan_rankings_deltas_witness :
    latestRankRow "#M" [c5Row] = some c5Row ∧
      (¬ ∃ r ∈ [c5Row], r.player_tag = "#M" ∧ r.recorded_at = "R2") ∧
      processMember "#C" "Clan" "R2" 1 [c5Row] c5Member =
        [c5Row] ++ [⟨"#M", "Mia", 1, 3100, 80, 10, 100, 30, "#C", "Clan", "R2"⟩] :=
  ⟨by decide, by decide,
    save_clan_rankings_deltas.2.1 "#C" "Clan" "R2" 1 [c5Row] c5Member c5Row
      (by decide) (by decide)⟩

/-- C7 counterexample: the member `#E` with stored deck history A,B /
C,D / A,B has three consolidated periods (three maximal runs), but
`get_clan_deck_analytics` reports `deck_changes = 2` — it counts
distinct fingerprints, not periods. -/
theorem deck_experimenters_cex :
    (deck_experimenters c7Rows).map Experimenter.deck_changes = [2] ∧
      (get_member_deck_history (c7Rows.map snapOfDeckRow)).length = 3 ∧
      (2 : Nat) ≠ 3 := by
  decide

/-- C7 (amended): for every member, the `deck_changes` value produced by
`get_clan_deck_analytics` equals the number of *distinct* deck
fingerprints among that member's stored rows (a history A, then B, then
A again counts 2), and members are ordered by this count descending. -/
theorem deck_experimenters_distinct_counts :
    ∀ rows : List DeckRow,
      (deck_experimenters rows).Pairwise expMoreChanges ∧
        ∀ e ∈ deck_experimenters rows,
          e.deck_changes =
            (((rows.filter fun r => r.player_tag == e.player_tag && r.name == e.name).map
              DeckRow.deck_cards).dedup).length := by
  intro rows
  constructor
  · exact List.sorted_insertionSort _ _
  · intro e he
    have he2 : e ∈ ((rows.map fun r => (r.player_tag, r.name)).dedup).map fun k =>
        ({ player_tag := k.1, name := k.2,
           deck_changes :=
             (((rows.filter fun r => r.player_tag == k.1 && r.name == k.2).map
               DeckRow.deck_cards).dedup).length,
           first_deck :=
             minList ((rows.filter fun r => r.player_tag == k.1 && r.name == k.2).map
               DeckRow.first_seen),
           latest_deck :=
             maxList ((rows.filter fun r => r.player_tag == k.1 && r.name == k.2).map
               DeckRow.last_seen) } : Experimenter) :=
      (List.perm_insertionSort _ _).subset he
    obtain ⟨k, hk, hek⟩ := List.mem_map.mp he2
    subst hek
    rfl

/-- Witness for C7 (amended) at the concrete history `c7Rows`. -/
theorem deck_experimenters_distinct_counts_witness :
    (⟨"#E", "Eve", 2, "t1", "t3"⟩ : Experimenter) ∈ deck_experimenters c7Rows ∧
      (⟨"#E", "Eve", 2, "t1", "t3"⟩ : Experimenter).deck_changes =
        (((c7Rows.filter fun r =>
            r.player_tag == (⟨"#E", "Eve", 2, "t1", "t3"⟩ : Experimenter).player_tag &&
              r.name == (⟨"#E", "Eve", 2, "t1", "t3"⟩ : Experimenter).name).map
          DeckRow.deck_cards).dedup).length :=
  ⟨by decide, (deck_experimenters_distinct_counts c7Rows).2 _ (by decide)⟩

theorem sum_indicator_eq_count (l : List BattleRow) :
    (l.map fun b => if b.result == "victory" then (1 : ℚ) else 0).sum
      = ((l.filter fun b => b.result == "victory").length : ℚ) := by
  induction l with
  | nil => simp
  | cons x xs ih =>
    by_cases hx : (x.result == "victory") = true
    · simp only [List.map_cons, List.sum_cons, if_pos hx, List.filter_cons, hx, if_true,
        List.length_cons, ih]
      push_cast
      ring
    · simp only [List.map_cons, List.sum_cons, if_neg hx, List.filter_cons, hx,
        Bool.false_eq_true, if_false, ih]
      ring

theorem c6_perfAB :
    mkDeckPerf "A | B" (c6Battles.filter fun b => b.deck_cards == "A | B")
      = ⟨"A | B", 2, 1, 1, 50, 2, 1, 1⟩ := by
  have hf : c6Battles.filter (fun b => b.deck_cards == "A | B")
      = [mkC6Battle "A | B" "victory" 10 "t1", mkC6Battle "A | B" "defeat" (-8) "t2"] := by
    decide
  rw [hf]
  simp +decide only [mkDeckPerf, mkC6Battle, DeckPerf.mk.injEq, List.map_cons, List.map_nil,
    List.sum_cons, List.sum_nil, List.filter_cons, List.filter_nil, List.length_cons,
    List.length_nil, Option.getD_some]
  norm_num [round2]

theorem c6_perfCD :
    mkDeckPerf "C | D" (c6Battles.filter fun b => b.deck_cards == "C | D")
      = ⟨"C | D", 1, 1, 0, 100, 12, 12, 1⟩ := by
  have hf : c6Battles.filter (fun b => b.deck_cards == "C | D")
      = [mkC6Battle "C | D" "victory" 12 "t3"] := by
    decide
  rw [hf]
  simp +decide only [mkDeckPerf, mkC6Battle, DeckPerf.mk.injEq, List.map_cons, List.map_nil,
    List.sum_cons, List.sum_nil, List.filter_cons, List.filter_nil, List.length_cons,
    List.length_nil, Option.getD_some]
  norm_num [round2]

theorem c6_view :
    deck_performance c6Battles =
      [⟨"C | D", 1, 1, 0, 100, 12, 12, 1⟩, ⟨"A | B", 2, 1, 1, 50, 2, 1, 1⟩] := by
  unfold deck_performance
  have hdedup : (c6Battles.map BattleRow.deck_cards).dedup = ["A | B", "C | D"] := by decide
  rw [hdedup]
  simp only [List.map_cons, List.map_nil]
  rw [c6_perfAB, c6_perfCD]
  have hno : ¬ perfOrder ⟨"A | B", 2, 1, 1, 50, 2, 1, 1⟩ ⟨"C | D", 1, 1, 0, 100, 12, 12, 1⟩ := by
    unfold perfOrder
    norm_num
  simp only [List.insertionSort, List.orderedInsert]
  rw [if_neg hno]

/-- C6: `deck_performance` groups the stored battles by deck fingerprint;
each group reports `win_rate = round2(wins / total · 100)` (1 win out of
2 battles yields 50.0) and `total_trophy_change` equal to the sum of the
group's trophy changes; the list is ordered by win rate descending then
battle count descending; `get_deck_performance` additionally keeps only
decks with at least 3 battles.  The concrete scenario battles give
deck C,D `{battles 1, wins 1, win_rate 100}` and deck A,B
`{battles 2, wins 1, losses 1, win_rate 50, total_trophy_change 2}`. -/
theorem deck_performance_correct :
    (∀ table : List BattleRow, (deck_performance table).Pairwise perfOrder) ∧
      (∀ (table : List BattleRow) (p : DeckPerf), p ∈ deck_performance table →
          p = mkDeckPerf p.deck_cards (table.filter fun b => b.deck_cards == p.deck_cards) ∧
          p.win_rate = round2 ((p.wins : ℚ) / (p.total_battles : ℚ) * 100) ∧
          p.wins = ((table.filter fun b => b.deck_cards == p.deck_cards).filter
              fun b => b.result == "victory").length ∧
          p.total_battles = (table.filter fun b => b.deck_cards == p.deck_cards).length ∧
          p.total_trophy_change = ((table.filter fun b => b.deck_cards == p.deck_cards).map
              fun b => b.trophy_change.getD 0).sum) ∧
      (∀ (table : List BattleRow) (limit : Nat),
          (get_deck_performance table limit).Pairwise perfOrder ∧
            ∀ p ∈ get_deck_performance table limit,
              3 ≤ p.total_battles ∧ p ∈ deck_performance table) ∧
      (deck_performance c6Battles).map
          (fun p => (p.deck_cards, p.total_battles, p.wins, p.losses, p.win_rate,
            p.total_trophy_change)) =
        [("C | D", 1, 1, 0, (100 : ℚ), (12 : Int)), ("A | B", 2, 1, 1, (50 : ℚ), (2 : Int))] ∧
      get_deck_performance c6Battles 10 = [] := by
  have hmem : ∀ (table : List BattleRow) (p : DeckPerf), p ∈ deck_performance table →
      p = mkDeckPerf p.deck_cards (table.filter fun b => b.deck_cards == p.deck_cards) ∧
      p.win_rate = round2 ((p.wins : ℚ) / (p.total_battles : ℚ) * 100) ∧
      p.wins = ((table.filter fun b => b.deck_cards == p.deck_cards).filter
          fun b => b.result == "victory").length ∧
      p.total_battles = (table.filter fun b => b.deck_cards == p.deck_cards).length ∧
      p.total_trophy_change = ((table.filter fun b => b.deck_cards == p.deck_cards).map
          fun b => b.trophy_change.getD 0).sum := by
    intro table p hp
    have hp2 : p ∈ ((table.map BattleRow.deck_cards).dedup).map fun fp =>
        mkDeckPerf fp (table.filter fun b => b.deck_cards == fp) :=
      (List.perm_insertionSort _ _).subset hp
    obtain ⟨fp, hfp, hpe⟩ := List.mem_map.mp hp2
    subst hpe
    refine ⟨rfl, ?_, rfl, rfl, rfl⟩
    show round2 _ = _
    rw [sum_indicator_eq_count]
    rfl
  refine ⟨fun table => List.sorted_insertionSort _ _, hmem, ?_, ?_, ?_⟩
  · intro table limit
    constructor
    · exact (List.sorted_insertionSort perfOrder _).sublist (List.take_sublist _ _)
    · intro p hp
      have hp2 : p ∈ List.insertionSort perfOrder
          ((deck_performance table).filter fun p => decide (3 ≤ p.total_battles)) :=
        (List.take_sublist _ _).subset hp
      have hp3 : p ∈ (deck_performance table).filter fun p => decide (3 ≤ p.total_battles) :=
        (List.perm_insertionSort _ _).subset hp2
      have hp4 := List.mem_filter.mp hp3
      exact ⟨of_decide_eq_true hp4.2, hp4.1⟩
  · rw [c6_view]
    rfl
  · unfold get_deck_performance
    rw [c6_view]
    rfl

/-- Witness for C6: the deck `C | D` entry of the scenario's
`deck_performance` output satisfies the win-rate formula. -/
theorem deck_performance_correct_witness :
    (⟨"C | D", 1, 1, 0, 100, 12, 12, 1⟩ : DeckPerf) ∈ deck_performance c6Battles ∧
      (⟨"C | D", 1, 1, 0, 100, 12, 12, 1⟩ : DeckPerf).win_rate =
        round2 (((⟨"C | D", 1, 1, 0, 100, 12, 12, 1⟩ : DeckPerf).wins : ℚ) /
          ((⟨"C | D", 1, 1, 0, 100, 12, 12, 1⟩ : DeckPerf).total_battles : ℚ) * 100) :=
  ⟨by rw [c6_view]; exact List.mem_cons_self _ _,
    (deck_performance_correct.2.1 c6Battles ⟨"C | D", 1, 1, 0, 100, 12, 12, 1⟩
      (by rw [c6_view]; exact List.mem_cons_self _ _)).2.1⟩

theorem map_proj_id {α β : Type} (f : α → β) (g : β → α) (h : ∀ a, g (f a) = a) :
    ∀ l : List α, (l.map f).map g = l := by
  intro l
  rw [List.map_map]
  have hc : ∀ a ∈ l, (g ∘ f) a = id a := fun a _ => h a
  rw [List.map_congr_left hc, List.map_id]

theorem rangeMapShift (n : Nat) (c : Int) :
    (List.range (n + 1)).map (fun (i : Nat) => c + (i : Int))
      = c :: (List.range n).map (fun (i : Nat) => (c + 1) + (i : Int)) := by
  rw [List.range_succ_eq_map]
  simp only [List.map_cons, List.map_map]
  congr 1
  · norm_num
  · apply List.map_congr_left
    intro i hi
    show c + ((i + 1 : Nat) : Int) = (c + 1) + (i : Int)
    push_cast
    ring

theorem date_range_from_eq (n : Nat) :
    ∀ d : Int, date_range_from d (d + (n : Int))
      = (List.range (n + 1)).map (fun (i : Nat) => d + (i : Int)) := by
  induction n with
  | zero =>
    intro d
    unfold date_range_from
    rw [dif_neg (by omega)]
    rw [show (1 : Nat) = 0 + 1 from rfl, List.range_succ_eq_map]
    simp
  | succ m ih =>
    intro d
    unfold date_range_from
    rw [dif_pos (by push_cast; omega)]
    rw [show d + ((m + 1 : Nat) : Int) = (d + 1) + (m : Int) by push_cast; ring]
    rw [ih (d + 1), rangeMapShift (m + 1) d]

theorem chain'_range_map (n : Nat) :
    ∀ c : Int,
      ((List.range n).map fun (i : Nat) => c + (i : Int)).Chain' (fun a b => b = a + 1) := by
  induction n with
  | zero => intro c; simp
  | succ m ih =>
    intro c
    rw [rangeMapShift m c]
    cases m with
    | zero => simp
    | succ k =>
      rw [rangeMapShift k (c + 1)]
      rw [List.chain'_cons]
      refine ⟨rfl, ?_⟩
      rw [← rangeMapShift k (c + 1)]
      exact ih (c + 1)

/-- C4: for every window size `N ≥ 1`, `get_daily_battle_stats` returns
exactly `N` records, whose dates are exactly `today − (N−1) + i` for
`i = 0, …, N−1` — a strictly increasing, gapless range from
`today − (N−1)` through `today`, oldest first — and every day whose
battle set is empty reports zero wins, losses, draws and total battles
instead of being omitted. -/
theorem get_daily_battle_stats_window :
    ∀ (dayOf : String → Int) (today : Int) (days_limit : Nat) (table : List BattleRow),
      1 ≤ days_limit →
      (get_daily_battle_stats dayOf today days_limit table).length = days_limit ∧
        (get_daily_battle_stats dayOf today days_limit table).map DayStat.date
          = (List.range days_limit).map
              (fun (i : Nat) => today - ((days_limit : Int) - 1) + (i : Int)) ∧
        ((get_daily_battle_stats dayOf today days_limit table).map DayStat.date).Chain'
          (fun a b => b = a + 1) ∧
        ∀ s ∈ get_daily_battle_stats dayOf today days_limit table,
          (table.filter fun b => dayOf b.battle_time == s.date) = [] →
          s.wins = 0 ∧ s.losses = 0 ∧ s.draws = 0 ∧ s.total_battles = 0 := by
  intro dayOf today N table hN
  obtain ⟨m, rfl⟩ : ∃ m, N = m + 1 := ⟨N - 1, by omega⟩
  have hstart : (today - (((m + 1 : Nat) : Int) - 1)) + (m : Int) = today := by
    push_cast
    ring
  have hrange : date_range_from (today - (((m + 1 : Nat) : Int) - 1)) today
      = (List.range (m + 1)).map
          (fun (i : Nat) => today - (((m + 1 : Nat) : Int) - 1) + (i : Int)) := by
    have h := date_range_from_eq m (today - (((m + 1 : Nat) : Int) - 1))
    rw [hstart] at h
    exact h
  have hmap : (get_daily_battle_stats dayOf today (m + 1) table).map DayStat.date
      = (List.range (m + 1)).map
          (fun (i : Nat) => today - (((m + 1 : Nat) : Int) - 1) + (i : Int)) := by
    unfold get_daily_battle_stats
    rw [hrange]
    rw [map_proj_id _ DayStat.date (fun d => rfl)]
  refine ⟨?_, hmap, ?_, ?_⟩
  · have h := congrArg List.length hmap
    rw [List.length_map, List.length_map, List.length_range] at h
    exact h
  · rw [hmap]
    exact chain'_range_map (m + 1) _
  · intro s hs hfil
    unfold get_daily_battle_stats at hs
    obtain ⟨d, hd, hse⟩ := List.mem_map.mp hs
    subst hse
    have hfil2 : (table.filter fun b => dayOf b.battle_time == d) = [] := hfil
    refine ⟨?_, ?_, ?_, ?_⟩
    · show ((table.filter fun b => dayOf b.battle_time == d).filter
          fun b => b.result == "victory").length = 0
      rw [hfil2]
      rfl
    · show ((table.filter fun b => dayOf b.battle_time == d).filter
          fun b => b.result == "defeat").length = 0
      rw [hfil2]
      rfl
    · show ((table.filter fun b => dayOf b.battle_time == d).filter
          fun b => b.result == "draw").length = 0
      rw [hfil2]
      rfl
    · show (table.filter fun b => dayOf b.battle_time == d).length = 0
      rw [hfil2]
      rfl

/-- Witness for C4 at a three-day window over an empty battles table. -/
theorem get_daily_battle_stats_window_witness :
    (get_daily_battle_stats (fun _ => 0) 10 3 []).length = 3 ∧
      (get_daily_battle_stats (fun _ => 0) 10 3 []).map DayStat.date
        = (List.range 3).map (fun (i : Nat) => 10 - (((3 : Nat) : Int) - 1) + (i : Int)) ∧
      ((get_daily_battle_stats (fun _ => 0) 10 3 []).map DayStat.date).Chain'
        (fun a b => b = a + 1) ∧
      ∀ s ∈ get_daily_battle_stats (fun _ => 0) 10 3 [],
        (List.filter (fun b : BattleRow =>
            (fun _ : String => (0 : Int)) b.battle_time == s.date) [] = []) →
        s.wins = 0 ∧ s.losses = 0 ∧ s.draws = 0 ∧ s.total_battles = 0 :=
  get_daily_battle_stats_window (fun _ => 0) 10 3 [] (by decide)
